import Mathlib

/-!
A shallow embedding of the bitcoin_benchmark crate (src/main.rs) and proofs
about its benchmark execution pipeline: result parsing, persistence,
workspace preparation, the benchmark runner, and the daemon scheduler loop.

Modelling conventions: JSON numbers and the Rust `f64` fields are modelled
as rationals (the artifact's numerals are decimal text, and serde_json's
f64 text round-trip is exact); `i32` exit codes are integers constrained to
the i32 range by the decoder; external effects (process spawning, exit
statuses, the clock) are passed in explicitly as environment values.
-/

namespace BitcoinBenchmark

/-- JSON document values as seen by serde_json. -/
inductive Json where
  | null : Json
  | bool : Bool → Json
  | num : ℚ → Json
  | str : String → Json
  | arr : List Json → Json
  | obj : List (String × Json) → Json

/-- The binding of a field name in a JSON object (first occurrence). -/
def Json.lookup : List (String × Json) → String → Option Json
  | [], _ => none
  | (k, v) :: rest, name => if k = name then some v else Json.lookup rest name

/-- Field access on a JSON value: defined only on objects. -/
def Json.getField : Json → String → Option Json
  | .obj fs, name => Json.lookup fs name
  | _, _ => none

/-- `struct Parameters { commit: String }` (src/main.rs:52-55). -/
structure Parameters where
  commit : String
deriving DecidableEq

/-- `struct BenchmarkResult` (src/main.rs:36-50). -/
structure BenchmarkResult where
  command : String
  mean : ℚ
  stddev : Option ℚ
  median : ℚ
  user : ℚ
  system : ℚ
  min : ℚ
  max : ℚ
  times : List ℚ
  exit_codes : List ℤ
  parameters : Option Parameters
deriving DecidableEq

/-- `struct HyperfineResults { results: Vec<BenchmarkResult> }` (src/main.rs:31-34). -/
structure HyperfineResults where
  results : List BenchmarkResult
deriving DecidableEq

/-- serde deserialization of a `String` field value. -/
def decodeString? : Json → Option String
  | .str s => some s
  | _ => none

/-- serde_json deserialization of an `f64` field value. -/
def decodeNum? : Json → Option ℚ
  | .num q => some q
  | _ => none

/-- Smallest i32 value. -/
def i32min : ℤ := -2147483648

/-- Largest i32 value. -/
def i32max : ℤ := 2147483647

/-- serde_json deserialization of an `i32`: an integral JSON number within the
i32 range; anything else is an error. -/
def decodeInt? : Json → Option ℤ
  | .num q => if q.den = 1 ∧ i32min ≤ q.num ∧ q.num ≤ i32max then some q.num else none
  | _ => none

/-- Element-wise decoding of a sequence, failing on the first bad element
(serde's `Vec<T>` deserialization). -/
def decodeSeq (f : α → Option β) : List α → Option (List β)
  | [] => some []
  | a :: rest => (f a).bind fun b => (decodeSeq f rest).map fun bs => b :: bs

/-- serde deserialization of `times: Vec<f64>`. -/
def decodeTimes : Json → Option (List ℚ)
  | .arr js => decodeSeq decodeNum? js
  | _ => none

/-- serde deserialization of `exit_codes: Vec<i32>`. -/
def decodeExitCodes : Json → Option (List ℤ)
  | .arr js => decodeSeq decodeInt? js
  | _ => none

/-- serde deserialization of `Parameters` (src/main.rs:52-55): the field
`commit` is required; unknown keys are ignored; a non-object is an error. -/
def decodeParameters : Json → Option Parameters
  | .obj fs => (Json.lookup fs "commit").bind fun v => (decodeString? v).map Parameters.mk
  | _ => none

/-- A required string field of a `BenchmarkResult` object. -/
def reqStr (fs : List (String × Json)) (name : String) : Option String :=
  (Json.lookup fs name).bind decodeString?

/-- A required numeric field of a `BenchmarkResult` object. -/
def reqNum (fs : List (String × Json)) (name : String) : Option ℚ :=
  (Json.lookup fs name).bind decodeNum?

/-- The required `times` field of a `BenchmarkResult` object. -/
def reqTimes (fs : List (String × Json)) : Option (List ℚ) :=
  (Json.lookup fs "times").bind decodeTimes

/-- The required `exit_codes` field of a `BenchmarkResult` object. -/
def reqExitCodes (fs : List (String × Json)) : Option (List ℤ) :=
  (Json.lookup fs "exit_codes").bind decodeExitCodes

/-- An optional numeric field: an absent or null field decodes as `none`
(covers `#[serde(default)] stddev: Option<f64>`, src/main.rs:40-41). -/
def optNum (fs : List (String × Json)) (name : String) : Option (Option ℚ) :=
  match Json.lookup fs name with
  | none => some none
  | some .null => some none
  | some v => (decodeNum? v).map some

/-- `parameters: Option<Parameters>` (src/main.rs:49): an absent or null field
decodes as `none`; any other value must decode as `Parameters`. -/
def optParams (fs : List (String × Json)) : Option (Option Parameters) :=
  match Json.lookup fs "parameters" with
  | none => some none
  | some .null => some none
  | some v => (decodeParameters v).map some

/-- serde deserialization of one `BenchmarkResult` (src/main.rs:36-50): all
fields other than `stddev` and `parameters` are required. -/
def decodeBenchmarkResult (j : Json) : Option BenchmarkResult :=
  match j with
  | .obj fs =>
    (reqStr fs "command").bind fun command =>
    (reqNum fs "mean").bind fun mean =>
    (optNum fs "stddev").bind fun stddev =>
    (reqNum fs "median").bind fun median =>
    (reqNum fs "user").bind fun user =>
    (reqNum fs "system").bind fun system =>
    (reqNum fs "min").bind fun mn =>
    (reqNum fs "max").bind fun mx =>
    (reqTimes fs).bind fun times =>
    (reqExitCodes fs).bind fun exit_codes =>
    (optParams fs).bind fun parameters =>
    some ⟨command, mean, stddev, median, user, system, mn, mx, times, exit_codes, parameters⟩
  | _ => none

/-- serde deserialization of `HyperfineResults` (src/main.rs:31-34): a JSON
object with a required `results` array. -/
def decodeHyperfineResults (j : Json) : Option HyperfineResults :=
  match j with
  | .obj fs =>
    (Json.lookup fs "results").bind fun v =>
      match v with
      | .arr js => (decodeSeq decodeBenchmarkResult js).map HyperfineResults.mk
      | _ => none
  | _ => none

/-- Failure modes of the artifact read/parse stage (src/main.rs:170-174). -/
inductive ParseError where
  | unreadableFile
  | malformedJson
  | invalidStructure
deriving DecidableEq

/-- The read-and-parse stage of `save_results_to_db` (src/main.rs:170-174).
The argument models the `results.json` artifact: `none` an unreadable file,
`some none` file text that is not a JSON document, `some (some j)` the JSON
document `j`. -/
def parseResults : Option (Option Json) → Except ParseError HyperfineResults
  | none => .error .unreadableFile
  | some none => .error .malformedJson
  | some (some j) =>
    match decodeHyperfineResults j with
    | none => .error .invalidStructure
    | some r => .ok r

/-- serde_json serialization of `times: Vec<f64>` (src/main.rs:221). -/
def encodeTimes (ts : List ℚ) : Json := .arr (ts.map Json.num)

/-- serde_json serialization of `exit_codes: Vec<i32>` (src/main.rs:223). -/
def encodeExitCodes (cs : List ℤ) : Json := .arr (cs.map fun (c : ℤ) => Json.num (c : ℚ))

/-- serde_json serialization of `parameters: Option<Parameters>`
(src/main.rs:225): `None` serializes as null, `Some` as an object with the
single `commit` entry. -/
def encodeParameters : Option Parameters → Json
  | none => .null
  | some p => .obj [("commit", .str p.commit)]

/-- serde_json serialization of a whole `BenchmarkResult` (the derived
`Serialize` of src/main.rs:36-50), used to range over well-typed documents. -/
def encodeBenchmarkResult (r : BenchmarkResult) : Json :=
  .obj [("command", .str r.command), ("mean", .num r.mean),
        ("stddev", match r.stddev with | none => Json.null | some q => Json.num q),
        ("median", .num r.median), ("user", .num r.user), ("system", .num r.system),
        ("min", .num r.min), ("max", .num r.max),
        ("times", encodeTimes r.times), ("exit_codes", encodeExitCodes r.exit_codes),
        ("parameters", encodeParameters r.parameters)]

/-- One row of the `benchmarks` table (src/main.rs:178-196). The columns
stored as JSON text hold the JSON value whose textual encoding is stored. -/
structure Row where
  commit_hash : String
  command : String
  mean : ℚ
  stddev : Option ℚ
  median : ℚ
  user : ℚ
  system : ℚ
  min : ℚ
  max : ℚ
  times : Json
  exit_codes : Json
  parameters : Json

/-- The row inserted for one result by the insert loop (src/main.rs:199-229),
including the commit extraction of src/main.rs:201-205. -/
def rowOfResult (commit : String) (r : BenchmarkResult) : Row :=
  { commit_hash :=
      match r.parameters with
      | some p => p.commit
      | none => commit
    command := r.command
    mean := r.mean
    stddev := r.stddev
    median := r.median
    user := r.user
    system := r.system
    min := r.min
    max := r.max
    times := encodeTimes r.times
    exit_codes := encodeExitCodes r.exit_codes
    parameters := encodeParameters r.parameters }

/-- `save_results_to_db` (src/main.rs:169-233): read and parse the artifact,
then insert one row per parsed result, in order. The returned list is the
sequence of rows appended to the `benchmarks` table. -/
def save_results_to_db (commit : String) (fileContent : Option (Option Json)) :
    Except ParseError (List Row) :=
  match parseResults fileContent with
  | .error e => .error e
  | .ok hr => .ok (hr.results.map (rowOfResult commit))

/-- Outcome of the external environment during `git_update_repository`:
whether `set_current_dir` succeeds, and for each git command `none` when the
process cannot be launched, `some code` its exit status once it ran. -/
structure GitEnv where
  chdirOk : Bool
  fetchStatus : Option ℤ
  checkoutStatus : Option ℤ

/-- Failures surfaced by `git_update_repository` (src/main.rs:116-131). -/
inductive WorkspaceError where
  | chdirFailed (path : String)
  | fetchLaunchFailed
  | checkoutLaunchFailed (commit : String)
deriving DecidableEq

/-- `git_update_repository` (src/main.rs:116-131). `Command::status()` fails
only when the process cannot be launched; the exit status it returns is
discarded by the source, which this definition mirrors. -/
def git_update_repository (commit repo_path : String) (env : GitEnv) :
    Except WorkspaceError Unit :=
  if env.chdirOk then
    match env.fetchStatus with
    | none => .error .fetchLaunchFailed
    | some _ =>
      match env.checkoutStatus with
      | none => .error (.checkoutLaunchFailed commit)
      | some _ => .ok ()
  else .error (.chdirFailed repo_path)

/-- Captured output of the shell running the hyperfine command line. -/
structure ProcessOutput where
  status : ℤ
  stdout : String
  stderr : String
deriving DecidableEq

/-- Environment of `run_hyperfine`: whether chdir succeeds and, when the
shell could be launched, its captured output and exit status. -/
structure RunnerEnv where
  chdirOk : Bool
  output : Option ProcessOutput

/-- Failures surfaced by `run_hyperfine` (src/main.rs:133-167). -/
inductive RunnerError where
  | chdirFailed (path : String)
  | launchFailed
  | commandFailed (status : ℤ) (stdout stderr : String)
deriving DecidableEq

/-- `run_hyperfine` (src/main.rs:133-167): a launch failure is an error, and
a non-zero exit status fails with the status and both captured streams
(src/main.rs:155-164). -/
def run_hyperfine (commit repo_path : String) (env : RunnerEnv) :
    Except RunnerError Unit :=
  if env.chdirOk then
    match env.output with
    | none => .error .launchFailed
    | some out =>
      if out.status = 0 then .ok ()
      else .error (.commandFailed out.status out.stdout out.stderr)
  else .error (.chdirFailed repo_path)

/-- Observable events of the daemon loop, in order of occurrence. -/
inductive DaemonEvent where
  | slept (delay : ℤ)
  | ran (commit : String) (ok : Bool)
  | loggedError (commit : String)
  | skipped (fireTime : ℤ)
deriving DecidableEq

/-- Environment of the daemon loop: the clock value sampled at iteration `i`
and whether the pipeline invoked at iteration `i` would succeed. -/
structure DaemonEnv where
  now : ℕ → ℤ
  runOk : ℕ → Bool

/-- One iteration of the daemon loop body (src/main.rs:81-96): a non-negative
duration sleeps until the fire time and runs the benchmark for `master`,
logging a failure to stderr and going on; a negative duration is skipped. -/
def daemonStep (env : DaemonEnv) (i : ℕ) (datetime : ℤ) : List DaemonEvent :=
  if 0 ≤ datetime - env.now i then
    DaemonEvent.slept (datetime - env.now i) ::
      DaemonEvent.ran "master" (env.runOk i) ::
      (if env.runOk i then [] else [DaemonEvent.loggedError "master"])
  else
    [DaemonEvent.skipped datetime]

/-- The loop of `start_daemon` (src/main.rs:76-99), over a finite prefix of
the schedule's upcoming fire times, starting at iteration `i`. -/
def start_daemon (env : DaemonEnv) (i : ℕ) : List ℤ → List DaemonEvent
  | [] => []
  | datetime :: rest => daemonStep env i datetime ++ start_daemon env (i + 1) rest

/-- Binding a constant failure collapses the whole computation. -/
theorem bind_const_none (x : Option α) :
    (x.bind fun _ => (none : Option β)) = none := by cases x <;> rfl

/-- Every element of a successful `decodeSeq` image has a preimage. -/
theorem decodeSeq_mem {f : α → Option β} {l : List α} {bs : List β}
    (h : decodeSeq f l = some bs) {b : β} (hb : b ∈ bs) : ∃ a ∈ l, f a = some b := by
  induction l generalizing bs with
  | nil =>
    simp only [decodeSeq, Option.some.injEq] at h
    subst h
    simp at hb
  | cons a as ih =>
    simp only [decodeSeq, Option.bind_eq_some, Option.map_eq_some'] at h
    obtain ⟨b0, hfa, bs0, hrest, hbs⟩ := h
    subst hbs
    rcases List.mem_cons.mp hb with h1 | h2
    · exact ⟨a, List.mem_cons_self a as, h1 ▸ hfa⟩
    · rcases ih hrest h2 with ⟨a1, ha1, hfa1⟩
      exact ⟨a1, List.mem_cons_of_mem _ ha1, hfa1⟩

/-- `decodeSeq` fails as soon as one element fails. -/
theorem decodeSeq_none_of_mem {f : α → Option β} {l : List α} {a : α}
    (ha : a ∈ l) (hfa : f a = none) : decodeSeq f l = none := by
  induction l with
  | nil => simp at ha
  | cons x xs ih =>
    rcases List.mem_cons.mp ha with h1 | h2
    · subst h1
      simp [decodeSeq, hfa]
    · simp [decodeSeq, ih h2, bind_const_none]

/-- Decoding an encoded list of sample times gives the list back. -/
theorem decodeSeq_decodeNum_map (ts : List ℚ) :
    decodeSeq decodeNum? (ts.map Json.num) = some ts := by
  induction ts with
  | nil => rfl
  | cons t ts ih => simp [decodeSeq, decodeNum?, ih]

/-- The stored `times` JSON decodes back to the original sequence. -/
theorem decodeTimes_encodeTimes (ts : List ℚ) : decodeTimes (encodeTimes ts) = some ts := by
  simp [decodeTimes, encodeTimes, decodeSeq_decodeNum_map]

/-- Decoding the encoding of an in-range i32 gives the value back. -/
theorem decodeInt_intCast (c : ℤ) (h1 : i32min ≤ c) (h2 : c ≤ i32max) :
    decodeInt? (Json.num (c : ℚ)) = some c := by
  simp [decodeInt?, Rat.den_intCast, Rat.num_intCast, h1, h2]

/-- Decoding an encoded list of in-range exit codes gives the list back. -/
theorem decodeSeq_decodeInt_map (cs : List ℤ) (h : ∀ c ∈ cs, i32min ≤ c ∧ c ≤ i32max) :
    decodeSeq decodeInt? (cs.map fun (c : ℤ) => Json.num (c : ℚ)) = some cs := by
  induction cs with
  | nil => rfl
  | cons c cs ih =>
    have hc := h c (List.mem_cons_self c cs)
    have hrec := ih fun x hx => h x (List.mem_cons_of_mem _ hx)
    simp only [List.map_cons, decodeSeq, decodeInt_intCast c hc.1 hc.2, hrec,
      Option.some_bind, Option.map_some']

/-- The stored `exit_codes` JSON decodes back to the original sequence. -/
theorem decodeExitCodes_encodeExitCodes (cs : List ℤ)
    (h : ∀ c ∈ cs, i32min ≤ c ∧ c ≤ i32max) :
    decodeExitCodes (encodeExitCodes cs) = some cs := by
  simp only [decodeExitCodes, encodeExitCodes, decodeSeq_decodeInt_map cs h]

/-- Any value produced by the i32 decoder lies in the i32 range. -/
theorem decodeInt_range {j : Json} {c : ℤ} (h : decodeInt? j = some c) :
    i32min ≤ c ∧ c ≤ i32max := by
  cases j with
  | num q =>
    simp only [decodeInt?] at h
    split at h
    · rename_i hcond
      injection h with h
      subst h
      exact ⟨hcond.2.1, hcond.2.2⟩
    · exact absurd h (by simp)
  | null => exact absurd h (by simp [decodeInt?])
  | bool b => exact absurd h (by simp [decodeInt?])
  | str s => exact absurd h (by simp [decodeInt?])
  | arr js => exact absurd h (by simp [decodeInt?])
  | obj fs => exact absurd h (by simp [decodeInt?])

/-- Every exit code accepted by the sequence decoder is in i32 range. -/
theorem decodeExitCodes_range {j : Json} {cs : List ℤ} (h : decodeExitCodes j = some cs) :
    ∀ c ∈ cs, i32min ≤ c ∧ c ≤ i32max := by
  intro c hc
  cases j with
  | arr js =>
    simp only [decodeExitCodes] at h
    rcases decodeSeq_mem h hc with ⟨a, _, ha⟩
    exact decodeInt_range ha
  | null => exact absurd h (by simp [decodeExitCodes])
  | bool b => exact absurd h (by simp [decodeExitCodes])
  | num q => exact absurd h (by simp [decodeExitCodes])
  | str s => exact absurd h (by simp [decodeExitCodes])
  | obj fs => exact absurd h (by simp [decodeExitCodes])

/-- Every exit code of a decoded `BenchmarkResult` is in i32 range. -/
theorem decodeBenchmarkResult_range {j : Json} {r : BenchmarkResult}
    (h : decodeBenchmarkResult j = some r) :
    ∀ c ∈ r.exit_codes, i32min ≤ c ∧ c ≤ i32max := by
  cases j with
  | obj fs =>
    simp only [decodeBenchmarkResult, Option.bind_eq_some, Option.some.injEq] at h
    obtain ⟨command, -, mean, -, stddev, -, median, -, user, -, system, -, mn, -, mx, -,
      times, -, exit_codes, hec, parameters, -, hr⟩ := h
    subst hr
    intro c hc
    simp only [reqExitCodes, Option.bind_eq_some] at hec
    obtain ⟨v, -, hv⟩ := hec
    exact decodeExitCodes_range hv c hc
  | null => exact absurd h (by simp [decodeBenchmarkResult])
  | bool b => exact absurd h (by simp [decodeBenchmarkResult])
  | num q => exact absurd h (by simp [decodeBenchmarkResult])
  | str s => exact absurd h (by simp [decodeBenchmarkResult])
  | arr js => exact absurd h (by simp [decodeBenchmarkResult])

/-- A successful parse comes from an actual JSON document. -/
theorem parseResults_ok_inv {fc : Option (Option Json)} {hr : HyperfineResults}
    (h : parseResults fc = .ok hr) :
    ∃ j, fc = some (some j) ∧ decodeHyperfineResults j = some hr := by
  match fc with
  | none => simp [parseResults] at h
  | some none => simp [parseResults] at h
  | some (some j) =>
    refine ⟨j, rfl, ?_⟩
    simp only [parseResults] at h
    split at h
    · simp at h
    · rename_i r heq
      injection h with h
      subst h
      exact heq

/-- Every record of a decoded artifact was decoded from some element. -/
theorem decodeHyperfineResults_mem {j : Json} {hr : HyperfineResults}
    (h : decodeHyperfineResults j = some hr) {r : BenchmarkResult} (hrm : r ∈ hr.results) :
    ∃ a, decodeBenchmarkResult a = some r := by
  cases j with
  | obj fs =>
    simp only [decodeHyperfineResults, Option.bind_eq_some] at h
    obtain ⟨v, -, hmatch⟩ := h
    cases v with
    | arr js =>
      rw [Option.map_eq_some'] at hmatch
      obtain ⟨results, hres, hmk⟩ := hmatch
      subst hmk
      rcases decodeSeq_mem hres hrm with ⟨a, -, ha⟩
      exact ⟨a, ha⟩
    | null => simp at hmatch
    | bool b => simp at hmatch
    | num q => simp at hmatch
    | str s => simp at hmatch
    | obj gs => simp at hmatch
  | null => exact absurd h (by simp [decodeHyperfineResults])
  | bool b => exact absurd h (by simp [decodeHyperfineResults])
  | num q => exact absurd h (by simp [decodeHyperfineResults])
  | str s => exact absurd h (by simp [decodeHyperfineResults])
  | arr js => exact absurd h (by simp [decodeHyperfineResults])

/-- Every exit code of every record yielded by a successful parse is in i32
range (the decoder enforces it). -/
theorem parseResults_range {fc : Option (Option Json)} {hr : HyperfineResults}
    (h : parseResults fc = .ok hr) :
    ∀ r ∈ hr.results, ∀ c ∈ r.exit_codes, i32min ≤ c ∧ c ≤ i32max := by
  intro r hrm
  rcases parseResults_ok_inv h with ⟨j, -, hdec⟩
  rcases decodeHyperfineResults_mem hdec hrm with ⟨a, ha⟩
  exact decodeBenchmarkResult_range ha

/-- The parser accepts the serialization of every well-typed record and gives
the record back: it validates shape and field types only. -/
theorem decode_encode (r : BenchmarkResult)
    (h : ∀ c ∈ r.exit_codes, i32min ≤ c ∧ c ≤ i32max) :
    decodeBenchmarkResult (encodeBenchmarkResult r) = some r := by
  obtain ⟨command, mean, stddev, median, user, system, mn, mx, times, exit_codes, pars⟩ := r
  cases stddev <;> rcases pars with _ | ⟨pc⟩ <;>
    simp [encodeBenchmarkResult, decodeBenchmarkResult, reqStr, reqNum, reqTimes, reqExitCodes,
      optNum, optParams, Json.lookup, decodeString?, decodeNum?, decodeParameters,
      encodeParameters, decodeTimes_encodeTimes, decodeExitCodes_encodeExitCodes _ h]

/-- Claim C1: the source of `git_update_repository` never inspects the exit
statuses of `git fetch --all` and `git checkout`: with the working-directory
change succeeding and both git commands running to completion with exit
status 1, the call still returns success instead of a `WorkspaceError`. -/
theorem git_update_ignores_exit_status :
    git_update_repository "abc123" "/home/will/src/bitcoin" ⟨true, some 1, some 1⟩ =
      .ok () := rfl

/-- The artifact document used against claim C2: min 10 > median 5 > max 0,
mean 20 outside [min, max], one time but two exit codes. -/
def c2Doc : Json :=
  .obj [("results", .arr [
    .obj [("command", .str "cmd"), ("mean", .num 20), ("median", .num 5),
          ("user", .num 0), ("system", .num 0), ("min", .num 10), ("max", .num 0),
          ("times", .arr [.num 1]), ("exit_codes", .arr [.num 0, .num 0])]])]

/-- The record claim C2's counterexample document decodes to. -/
def c2Rec : BenchmarkResult :=
  ⟨"cmd", 20, none, 5, 0, 0, 10, 0, [1], [0, 0], none⟩

/-- Claim C2 counterexample: the parser accepts a document whose record has
min > median, mean > max, and times and exit_codes of different lengths, and
yields that record instead of rejecting the document. -/
theorem parse_accepts_invariant_violations :
    parseResults (some (some c2Doc)) = .ok ⟨[c2Rec]⟩ ∧
    ¬ c2Rec.min ≤ c2Rec.median ∧ ¬ c2Rec.mean ≤ c2Rec.max ∧
    c2Rec.times.length ≠ c2Rec.exit_codes.length := by
  refine ⟨rfl, by norm_num [c2Rec], by norm_num [c2Rec], by simp [c2Rec]⟩

/-- Claim C2 (amended): the parser checks only the JSON shape and the field
types, never the numeric or length invariants: the serialization of every
well-typed record, unconstrained, parses back to exactly that record. -/
theorem parse_accepts_all_well_typed_records (r : BenchmarkResult)
    (h : ∀ c ∈ r.exit_codes, i32min ≤ c ∧ c ≤ i32max) :
    parseResults (some (some (Json.obj [("results", Json.arr [encodeBenchmarkResult r])]))) =
      .ok ⟨[r]⟩ := by
  simp [parseResults, decodeHyperfineResults, Json.lookup, decodeSeq, decode_encode r h]

/-- A record violating every numeric invariant, accepted by the parser. -/
def w2Rec : BenchmarkResult := ⟨"cmd", 3, none, 9, 0, 0, 7, 1, [], [5], none⟩

theorem parse_accepts_all_well_typed_records_witness :
    parseResults (some (some (Json.obj [("results", Json.arr [encodeBenchmarkResult w2Rec])]))) =
      .ok ⟨[w2Rec]⟩ :=
  parse_accepts_all_well_typed_records w2Rec (by decide)

/-- The artifact document used against claim C3: the parameters mapping has
a second entry `threads` besides `commit`. -/
def c3Doc : Json :=
  .obj [("results", .arr [
    .obj [("command", .str "cmd"), ("mean", .num 1), ("median", .num 1),
          ("user", .num 0), ("system", .num 0), ("min", .num 1), ("max", .num 1),
          ("times", .arr [.num 1]), ("exit_codes", .arr [.num 0]),
          ("parameters", .obj [("commit", .str "abc"), ("threads", .str "4")])]])]

/-- The single row `c3Doc` persists. -/
def c3Row : Row := rowOfResult "rev" ⟨"cmd", 1, none, 1, 0, 0, 1, 1, [1], [0], some ⟨"abc"⟩⟩

/-- Claim C3 counterexample: the input's parameters mapping carries the entry
`threads`, but the persisted parameters JSON is exactly the object with the
single `commit` entry, so the `threads` entry is absent from the stored
encoding. -/
theorem stored_parameters_drop_entries :
    save_results_to_db "rev" (some (some c3Doc)) = .ok [c3Row] ∧
    c3Row.parameters = Json.obj [("commit", Json.str "abc")] ∧
    Json.getField c3Row.parameters "threads" = none ∧
    Json.getField (Json.obj [("commit", Json.str "abc"), ("threads", Json.str "4")])
      "threads" = some (Json.str "4") :=
  ⟨rfl, rfl, rfl, rfl⟩

/-- Claim C3 (amended): the persisted parameters column holds the encoding of
only the recognized `commit` entry of the parameters mapping; every other
entry is dropped when the record is decoded. -/
theorem stored_parameters_only_commit (commit : String) (r : BenchmarkResult)
    (p : Parameters) (h : r.parameters = some p) :
    (rowOfResult commit r).parameters = Json.obj [("commit", Json.str p.commit)] := by
  simp [rowOfResult, encodeParameters, h]

theorem stored_parameters_only_commit_witness :
    (rowOfResult "rev" ⟨"cmd", 1, none, 1, 0, 0, 1, 1, [1], [0], some ⟨"abc"⟩⟩).parameters =
      Json.obj [("commit", Json.str "abc")] :=
  stored_parameters_only_commit "rev" _ ⟨"abc"⟩ rfl

/-- Claim C4: the rows persisted for a parsed artifact are exactly the mapped
records, and each row's commit_hash is the record's parameters.commit when
parameters is present, else the supplied revision selector. -/
theorem commit_hash_from_parameters_else_revision (commit : String) (r : BenchmarkResult)
    (fc : Option (Option Json)) (hr : HyperfineResults) (h : parseResults fc = .ok hr) :
    save_results_to_db commit fc = .ok (hr.results.map (rowOfResult commit)) ∧
    (rowOfResult commit r).commit_hash =
      (match r.parameters with
       | some p => p.commit
       | none => commit) :=
  ⟨by simp [save_results_to_db, h], rfl⟩

/-- The artifact document for claim C4's witness: parameters.commit is
`deadbeef` while the supplied revision selector is `master`. -/
def c4Doc : Json :=
  .obj [("results", .arr [
    .obj [("command", .str "cmd"), ("mean", .num 1), ("median", .num 1),
          ("user", .num 0), ("system", .num 0), ("min", .num 1), ("max", .num 1),
          ("times", .arr [.num 1]), ("exit_codes", .arr [.num 0]),
          ("parameters", .obj [("commit", .str "deadbeef")])]])]

/-- The record `c4Doc` decodes to. -/
def c4Rec : BenchmarkResult := ⟨"cmd", 1, none, 1, 0, 0, 1, 1, [1], [0], some ⟨"deadbeef"⟩⟩

theorem commit_hash_from_parameters_else_revision_witness :
    save_results_to_db "master" (some (some c4Doc)) =
      .ok ([c4Rec].map (rowOfResult "master")) ∧
    (rowOfResult "master" c4Rec).commit_hash = "deadbeef" :=
  commit_hash_from_parameters_else_revision "master" c4Rec (some (some c4Doc)) ⟨[c4Rec]⟩ rfl

/-- Claim C5: each parsed record is persisted as exactly one row, in parse
order, and decoding the stored times and exit_codes JSON yields the record's
original sequences. -/
theorem append_roundtrip (commit : String) (fc : Option (Option Json))
    (hr : HyperfineResults) (h : parseResults fc = .ok hr) :
    save_results_to_db commit fc = .ok (hr.results.map (rowOfResult commit)) ∧
    (hr.results.map (rowOfResult commit)).length = hr.results.length ∧
    ∀ r ∈ hr.results,
      decodeTimes (rowOfResult commit r).times = some r.times ∧
      decodeExitCodes (rowOfResult commit r).exit_codes = some r.exit_codes := by
  refine ⟨by simp [save_results_to_db, h], by simp, ?_⟩
  intro r hrm
  exact ⟨decodeTimes_encodeTimes r.times,
    decodeExitCodes_encodeExitCodes r.exit_codes (parseResults_range h r hrm)⟩

/-- The artifact document for claim C5's witness. -/
def c5Doc : Json :=
  .obj [("results", .arr [
    .obj [("command", .str "cmd"), ("mean", .num 2), ("stddev", .num 1),
          ("median", .num 2), ("user", .num 1), ("system", .num 1),
          ("min", .num 1), ("max", .num 3),
          ("times", .arr [.num 2, .num 3]), ("exit_codes", .arr [.num 0, .num 1])]])]

/-- The record `c5Doc` decodes to. -/
def c5Rec : BenchmarkResult := ⟨"cmd", 2, some 1, 2, 1, 1, 1, 3, [2, 3], [0, 1], none⟩

theorem append_roundtrip_witness :
    save_results_to_db "rev" (some (some c5Doc)) = .ok ([c5Rec].map (rowOfResult "rev")) ∧
    ([c5Rec].map (rowOfResult "rev")).length = [c5Rec].length ∧
    ∀ r ∈ [c5Rec],
      decodeTimes (rowOfResult "rev" r).times = some r.times ∧
      decodeExitCodes (rowOfResult "rev" r).exit_codes = some r.exit_codes :=
  append_roundtrip "rev" (some (some c5Doc)) ⟨[c5Rec]⟩ rfl

/-- The nine required fields of a `BenchmarkResult` document. -/
def requiredFields : List String :=
  ["command", "mean", "median", "user", "system", "min", "max", "times", "exit_codes"]

/-- A well-formed record document with no `stddev` field. -/
def docWithoutStddev (command : String) (mean median user sys mn mx : ℚ)
    (ts : List ℚ) (cs : List ℤ) (pc : String) : Json :=
  .obj [("command", .str command), ("mean", .num mean), ("median", .num median),
        ("user", .num user), ("system", .num sys), ("min", .num mn), ("max", .num mx),
        ("times", encodeTimes ts), ("exit_codes", encodeExitCodes cs),
        ("parameters", .obj [("commit", .str pc)])]

/-- A well-formed record document with no `parameters` field. -/
def docWithoutParameters (command : String) (mean sd median user sys mn mx : ℚ)
    (ts : List ℚ) (cs : List ℤ) : Json :=
  .obj [("command", .str command), ("mean", .num mean), ("stddev", .num sd),
        ("median", .num median), ("user", .num user), ("system", .num sys),
        ("min", .num mn), ("max", .num mx),
        ("times", encodeTimes ts), ("exit_codes", encodeExitCodes cs)]

/-- A record document missing any one of the nine required fields is
rejected by the decoder. -/
theorem decode_missing_required (fs : List (String × Json)) (name : String)
    (hname : name ∈ requiredFields) (hmiss : Json.lookup fs name = none) :
    decodeBenchmarkResult (Json.obj fs) = none := by
  simp only [requiredFields, List.mem_cons, List.not_mem_nil, or_false] at hname
  rcases hname with h | h | h | h | h | h | h | h | h <;> subst h <;>
    simp [decodeBenchmarkResult, reqStr, reqNum, reqTimes, reqExitCodes, hmiss,
      bind_const_none]

/-- Claim C6: a document missing `stddev` decodes with stddev absent, one
missing `parameters` decodes with parameters absent; a document missing any
required field, malformed JSON text, or an unreadable file is a parse
error. -/
theorem parse_optional_and_required_fields (command pc : String)
    (mean sd median user sys mn mx : ℚ) (ts : List ℚ) (cs : List ℤ)
    (hcs : ∀ c ∈ cs, i32min ≤ c ∧ c ≤ i32max)
    (fs : List (String × Json)) (name : String)
    (hname : name ∈ requiredFields) (hmiss : Json.lookup fs name = none) :
    parseResults (some (some (Json.obj [("results",
        Json.arr [docWithoutStddev command mean median user sys mn mx ts cs pc])]))) =
      .ok ⟨[⟨command, mean, none, median, user, sys, mn, mx, ts, cs, some ⟨pc⟩⟩]⟩ ∧
    parseResults (some (some (Json.obj [("results",
        Json.arr [docWithoutParameters command mean sd median user sys mn mx ts cs])]))) =
      .ok ⟨[⟨command, mean, some sd, median, user, sys, mn, mx, ts, cs, none⟩]⟩ ∧
    parseResults (some (some (Json.obj [("results", Json.arr [Json.obj fs])]))) =
      .error .invalidStructure ∧
    parseResults none = .error .unreadableFile ∧
    parseResults (some none) = .error .malformedJson := by
  refine ⟨?_, ?_, ?_, rfl, rfl⟩
  · have hd : decodeBenchmarkResult (docWithoutStddev command mean median user sys mn mx ts cs pc) =
        some ⟨command, mean, none, median, user, sys, mn, mx, ts, cs, some ⟨pc⟩⟩ := by
      simp [docWithoutStddev, decodeBenchmarkResult, reqStr, reqNum, reqTimes, reqExitCodes,
        optNum, optParams, Json.lookup, decodeString?, decodeNum?, decodeParameters,
        decodeTimes_encodeTimes, decodeExitCodes_encodeExitCodes _ hcs]
    simp [parseResults, decodeHyperfineResults, Json.lookup, decodeSeq, hd]
  · have hd : decodeBenchmarkResult (docWithoutParameters command mean sd median user sys mn mx ts cs) =
        some ⟨command, mean, some sd, median, user, sys, mn, mx, ts, cs, none⟩ := by
      simp [docWithoutParameters, decodeBenchmarkResult, reqStr, reqNum, reqTimes, reqExitCodes,
        optNum, optParams, Json.lookup, decodeString?, decodeNum?, decodeParameters,
        decodeTimes_encodeTimes, decodeExitCodes_encodeExitCodes _ hcs]
    simp [parseResults, decodeHyperfineResults, Json.lookup, decodeSeq, hd]
  · have hd := decode_missing_required fs name hname hmiss
    simp [parseResults, decodeHyperfineResults, Json.lookup, decodeSeq, hd]

theorem parse_optional_and_required_fields_witness :
    parseResults (some (some (Json.obj [("results",
        Json.arr [docWithoutStddev "cmd" 1 1 1 1 1 1 [1] [0] "abc"])]))) =
      .ok ⟨[⟨"cmd", 1, none, 1, 1, 1, 1, 1, [1], [0], some ⟨"abc"⟩⟩]⟩ ∧
    parseResults (some (some (Json.obj [("results",
        Json.arr [docWithoutParameters "cmd" 1 2 1 1 1 1 1 [1] [0]])]))) =
      .ok ⟨[⟨"cmd", 1, some 2, 1, 1, 1, 1, 1, [1], [0], none⟩]⟩ ∧
    parseResults (some (some (Json.obj [("results", Json.arr [Json.obj []])]))) =
      .error .invalidStructure ∧
    parseResults none = .error .unreadableFile ∧
    parseResults (some none) = .error .malformedJson :=
  parse_optional_and_required_fields "cmd" "abc" 1 2 1 1 1 1 1 [1] [0] (by decide) []
    "mean" (by decide) rfl

/-- Claim C7: a non-zero exit status of the driver fails `run_hyperfine`
with an error carrying the exit status and both captured streams. -/
theorem runner_error_carries_output (commit repo_path : String) (env : RunnerEnv)
    (out : ProcessOutput) (hch : env.chdirOk = true) (hout : env.output = some out)
    (hst : out.status ≠ 0) :
    run_hyperfine commit repo_path env =
      .error (.commandFailed out.status out.stdout out.stderr) := by
  simp [run_hyperfine, hch, hout, hst]

theorem runner_error_carries_output_witness :
    run_hyperfine "abc123" "/home/will/src/bitcoin"
        ⟨true, some ⟨2, "captured out", "captured err"⟩⟩ =
      .error (.commandFailed 2 "captured out" "captured err") :=
  runner_error_carries_output "abc123" "/home/will/src/bitcoin" _
    ⟨2, "captured out", "captured err"⟩ rfl rfl (by decide)

/-- Claim C8: when a fire happens and the pipeline fails, the failure is
logged to stderr and the loop continues with the remaining fire times
unchanged; a failed run never terminates the loop. -/
theorem daemon_failure_logged_and_continues (env : DaemonEnv) (i : ℕ) (datetime : ℤ)
    (rest : List ℤ) (hfire : 0 ≤ datetime - env.now i) (hfail : env.runOk i = false) :
    daemonStep env i datetime =
      [DaemonEvent.slept (datetime - env.now i), DaemonEvent.ran "master" false,
       DaemonEvent.loggedError "master"] ∧
    start_daemon env i (datetime :: rest) =
      daemonStep env i datetime ++ start_daemon env (i + 1) rest := by
  refine ⟨?_, rfl⟩
  simp [daemonStep, hfire, hfail]

/-- A daemon environment whose pipeline always fails. -/
def w8Env : DaemonEnv := ⟨fun _ => 0, fun _ => false⟩

theorem daemon_failure_logged_and_continues_witness :
    daemonStep w8Env 0 3 =
      [DaemonEvent.slept 3, DaemonEvent.ran "master" false,
       DaemonEvent.loggedError "master"] ∧
    start_daemon w8Env 0 (3 :: [5]) = daemonStep w8Env 0 3 ++ start_daemon w8Env 1 [5] :=
  daemon_failure_logged_and_continues w8Env 0 3 [5] (by decide) rfl

/-- Claim C9: a fire time in the future is waited for and then fired; a fire
time in the past is skipped, with no run fired for it. -/
theorem daemon_future_waits_past_skips (env : DaemonEnv) (i : ℕ) (datetime : ℤ)
    (rest : List ℤ) :
    (env.now i < datetime →
      start_daemon env i (datetime :: rest) =
        DaemonEvent.slept (datetime - env.now i) :: DaemonEvent.ran "master" (env.runOk i) ::
          ((if env.runOk i then [] else [DaemonEvent.loggedError "master"]) ++
            start_daemon env (i + 1) rest)) ∧
    (datetime < env.now i →
      start_daemon env i (datetime :: rest) =
        DaemonEvent.skipped datetime :: start_daemon env (i + 1) rest ∧
      ∀ c ok, DaemonEvent.ran c ok ∉ daemonStep env i datetime) := by
  constructor
  · intro hf
    have h0 : 0 ≤ datetime - env.now i := by omega
    simp [start_daemon, daemonStep, h0]
  · intro hp
    have h0 : ¬ 0 ≤ datetime - env.now i := by omega
    refine ⟨?_, ?_⟩
    · simp [start_daemon, daemonStep, h0]
    · intro c ok
      simp [daemonStep, h0]

/-- A daemon environment whose pipeline always succeeds, clock fixed at 0. -/
def w9Env : DaemonEnv := ⟨fun _ => 0, fun _ => true⟩

theorem daemon_future_waits_past_skips_witness :
    start_daemon w9Env 0 [5] = [DaemonEvent.slept 5, DaemonEvent.ran "master" true] ∧
    (start_daemon w9Env 0 [-3] = [DaemonEvent.skipped (-3)] ∧
      ∀ c ok, DaemonEvent.ran c ok ∉ daemonStep w9Env 0 (-3)) :=
  ⟨(daemon_future_waits_past_skips w9Env 0 5 []).1 (by decide),
   (daemon_future_waits_past_skips w9Env 0 (-3) []).2 (by decide)⟩

/-- Claim C10: a record whose parameters field is a JSON object lacking the
key `commit` makes the decoding of the whole document fail, so parsing
errors out and no rows at all are persisted. -/
theorem parameters_without_commit_rejects_document (commit : String) (docs : List Json)
    (fields ps : List (String × Json)) (hmem : Json.obj fields ∈ docs)
    (hp : Json.lookup fields "parameters" = some (Json.obj ps))
    (hc : Json.lookup ps "commit" = none) :
    decodeBenchmarkResult (Json.obj fields) = none ∧
    save_results_to_db commit (some (some (Json.obj [("results", Json.arr docs)]))) =
      .error .invalidStructure := by
  have hop : optParams fields = none := by
    simp [optParams, hp, decodeParameters, hc]
  have hdec : decodeBenchmarkResult (Json.obj fields) = none := by
    simp [decodeBenchmarkResult, hop, bind_const_none]
  have hmap := decodeSeq_none_of_mem hmem hdec
  refine ⟨hdec, ?_⟩
  simp [save_results_to_db, parseResults, decodeHyperfineResults, Json.lookup, hmap]

/-- Field list of a record whose parameters object lacks `commit`. -/
def badFields : List (String × Json) :=
  [("command", Json.str "cmd"), ("mean", Json.num 1), ("median", Json.num 1),
   ("user", Json.num 0), ("system", Json.num 0), ("min", Json.num 1),
   ("max", Json.num 1), ("times", Json.arr [Json.num 1]),
   ("exit_codes", Json.arr [Json.num 0]),
   ("parameters", Json.obj [("threads", Json.str "4")])]

/-- An otherwise well-formed record document in the same artifact. -/
def goodDoc : Json :=
  Json.obj [("command", Json.str "cmd"), ("mean", Json.num 1), ("median", Json.num 1),
   ("user", Json.num 0), ("system", Json.num 0), ("min", Json.num 1),
   ("max", Json.num 1), ("times", Json.arr [Json.num 1]),
   ("exit_codes", Json.arr [Json.num 0])]

theorem parameters_without_commit_rejects_document_witness :
    decodeBenchmarkResult (Json.obj badFields) = none ∧
    save_results_to_db "rev" (some (some (Json.obj [("results",
        Json.arr [Json.obj badFields, goodDoc])]))) = .error .invalidStructure :=
  parameters_without_commit_rejects_document "rev" [Json.obj badFields, goodDoc] badFields
    [("threads", Json.str "4")] (List.mem_cons_self _ _) rfl rfl

end BitcoinBenchmark
